import Mathlib

/-!
Shallow embedding of the HINT navigation system (T-Mobile DubHacks repo).

The embedding covers:
* the geospatial utilities of `text_maps.py` (`calculate_distance`,
  `find_current_step`),
* the navigation progress logic of `pi_navigation_router.py`
  (`_process_navigation`, `_stop_navigation`),
* the polling loops of `firebase_client.py` (`listen_for_commands`,
  `listen_for_location_updates`, `get_latest_command`), and
* the device loops of `enhanced_laptop_client.py`
  (`_location_tracking_loop`, `_command_listening_loop`).

Python floats are modelled as real numbers; remote state (the Firebase
relay value, the GPS fix of a tick, the success of a network call) is
passed in explicitly as the input of each poll tick.
-/

namespace HINT

noncomputable section Geo

open Real

/-- Python `math.radians`: degrees to radians. -/
def radians (x : ℝ) : ℝ := x * Real.pi / 180

/-- Python `math.atan2 y x`, the two-argument arctangent as Python computes it
(IEEE atan2 restricted to real inputs, ignoring signed zero). -/
def atan2 (y x : ℝ) : ℝ :=
  if 0 < x then Real.arctan (y / x)
  else if x < 0 then
    (if 0 ≤ y then Real.arctan (y / x) + Real.pi else Real.arctan (y / x) - Real.pi)
  else
    (if 0 < y then Real.pi / 2 else if y < 0 then -(Real.pi / 2) else 0)

/-- The haversine intermediate `a` of `TextMaps.calculate_distance`
(text_maps.py lines 408-414): coordinates are `(latitude, longitude)`. -/
def hav_a (coord1 coord2 : ℝ × ℝ) : ℝ :=
  Real.sin (radians (coord2.1 - coord1.1) / 2) ^ 2 +
    Real.cos (radians coord1.1) * Real.cos (radians coord2.1) *
      Real.sin (radians (coord2.2 - coord1.2) / 2) ^ 2

/-- Model of `TextMaps.calculate_distance` (text_maps.py lines 390-417): haversine
distance in meters on a sphere of radius 6371000 m. -/
def calculate_distance (coord1 coord2 : ℝ × ℝ) : ℝ :=
  6371000 * (2 * atan2 (Real.sqrt (hav_a coord1 coord2))
    (Real.sqrt (1 - hav_a coord1 coord2)))

lemma radians_zero : radians 0 = 0 := by simp [radians]

lemma radians_neg (x : ℝ) : radians (-x) = -radians x := by
  simp [radians]; ring

lemma atan2_zero_one : atan2 0 1 = 0 := by
  simp [atan2]

lemma hav_a_comm (p q : ℝ × ℝ) : hav_a p q = hav_a q p := by
  have hs : ∀ x y : ℝ, Real.sin (radians (y - x) / 2) ^ 2
      = Real.sin (radians (x - y) / 2) ^ 2 := by
    intro x y
    have h : radians (x - y) / 2 = -(radians (y - x) / 2) := by
      simp [radians]; ring
    rw [h, Real.sin_neg]
    ring
  unfold hav_a
  rw [hs p.1 q.1, hs p.2 q.2, mul_comm (Real.cos (radians p.1)) (Real.cos (radians q.1))]

lemma hav_a_self (p : ℝ × ℝ) : hav_a p p = 0 := by
  simp [hav_a, radians_zero]

/-- Symmetry of the haversine distance. -/
lemma calculate_distance_comm (p q : ℝ × ℝ) :
    calculate_distance p q = calculate_distance q p := by
  unfold calculate_distance
  rw [hav_a_comm]

/-- The haversine distance from a point to itself is zero. -/
lemma calculate_distance_self (p : ℝ × ℝ) : calculate_distance p p = 0 := by
  unfold calculate_distance
  rw [hav_a_self]
  simp [atan2_zero_one]

/-- Closed form of the haversine distance between two points on the same
meridian (same longitude), for a non-negative latitude difference of at
most 90 degrees: radius times the latitude difference in radians. -/
lemma calculate_distance_meridian (lat1 lat2 lon : ℝ) (h0 : lat1 ≤ lat2)
    (h90 : lat2 - lat1 ≤ 90) :
    calculate_distance (lat1, lon) (lat2, lon) = 6371000 * radians (lat2 - lat1) := by
  have hpi := Real.pi_pos
  have hd0 : 0 ≤ lat2 - lat1 := sub_nonneg.mpr h0
  have hθ0 : 0 ≤ radians (lat2 - lat1) / 2 := by
    unfold radians; positivity
  have hθlt : radians (lat2 - lat1) / 2 < Real.pi / 2 := by
    unfold radians
    nlinarith [mul_le_mul_of_nonneg_right h90 (le_of_lt hpi)]
  have hθpi : radians (lat2 - lat1) / 2 ≤ Real.pi := by linarith
  have hsin : 0 ≤ Real.sin (radians (lat2 - lat1) / 2) :=
    Real.sin_nonneg_of_nonneg_of_le_pi hθ0 hθpi
  have hcos : 0 < Real.cos (radians (lat2 - lat1) / 2) :=
    Real.cos_pos_of_mem_Ioo ⟨by linarith, hθlt⟩
  have ha : hav_a (lat1, lon) (lat2, lon)
      = Real.sin (radians (lat2 - lat1) / 2) ^ 2 := by
    simp [hav_a, radians_zero]
  unfold calculate_distance
  rw [ha]
  have h1 : 1 - Real.sin (radians (lat2 - lat1) / 2) ^ 2
      = Real.cos (radians (lat2 - lat1) / 2) ^ 2 := by
    have := Real.sin_sq_add_cos_sq (radians (lat2 - lat1) / 2)
    linarith
  rw [h1, Real.sqrt_sq hsin, Real.sqrt_sq (le_of_lt hcos)]
  have hat : atan2 (Real.sin (radians (lat2 - lat1) / 2))
      (Real.cos (radians (lat2 - lat1) / 2)) = radians (lat2 - lat1) / 2 := by
    unfold atan2
    rw [if_pos hcos, ← Real.tan_eq_sin_div_cos,
      Real.arctan_tan (by linarith) hθlt]
  rw [hat]
  ring

/-- A navigation step as consumed by the router: OSRM's
`step['maneuver']['location']` is a `(longitude, latitude)` pair. -/
structure Step where
  maneuverLocation : ℝ × ℝ

/-- The `(lat, lon)` coordinates of a step's maneuver location, i.e. the
`lon,lat -> lat,lon` swap at text_maps.py line 436. -/
def step_coords (s : Step) : ℝ × ℝ := (s.maneuverLocation.2, s.maneuverLocation.1)

/-- The running-minimum loop of `TextMaps.find_current_step`
(text_maps.py lines 430-444): `min_distance` starts at `float('inf')`
(modelled as `none`, which every real distance beats), `current_step_idx`
starts at 0, and only a strictly smaller distance updates the index. -/
def select_min : List ℝ → ℕ → ℕ → Option ℝ → ℕ
  | [], _, best, _ => best
  | d :: rest, i, _, none => select_min rest (i + 1) i (some d)
  | d :: rest, i, best, some m =>
    if d < m then select_min rest (i + 1) i (some d)
    else select_min rest (i + 1) best (some m)

/-- Model of `TextMaps.find_current_step` (text_maps.py lines 419-444): index of
the step whose maneuver location is nearest to the current location. -/
def find_current_step (current_location : ℝ × ℝ) (steps : List Step) : ℕ :=
  select_min
    (steps.map (fun step => calculate_distance current_location (step_coords step)))
    0 0 none

/-- Invariant of the running-minimum loop: if the accumulator `(b, m)`
is the first minimum of the first `i` entries of `D` and `ds` is the
rest of `D`, the loop returns the first minimum of all of `D`. -/
lemma select_min_spec (D : List ℝ) (ds : List ℝ) (i b : ℕ) (m : ℝ)
    (hds : D.drop i = ds) (hbD : b < D.length)
    (hm : m = D.get ⟨b, hbD⟩)
    (hmin : ∀ j (hj : j < D.length), j < i → m ≤ D.get ⟨j, hj⟩)
    (hfirst : ∀ j (hj : j < D.length), j < b → m < D.get ⟨j, hj⟩) :
    ∃ hr : select_min ds i b (some m) < D.length,
      (∀ j (hj : j < D.length),
        D.get ⟨select_min ds i b (some m), hr⟩ ≤ D.get ⟨j, hj⟩) ∧
      (∀ j (hj : j < D.length), j < select_min ds i b (some m) →
        D.get ⟨select_min ds i b (some m), hr⟩ < D.get ⟨j, hj⟩) := by
  induction ds generalizing i b m with
  | nil =>
    have hiD : D.length ≤ i := List.drop_eq_nil_iff.mp hds
    subst hm
    refine ⟨by simpa [select_min] using hbD, ?_, ?_⟩
    · intro j hj
      simpa [select_min, List.get_eq_getElem] using hmin j hj (lt_of_lt_of_le hj hiD)
    · intro j hj hjb
      simp only [select_min] at hjb ⊢
      exact hfirst j hj hjb
  | cons d rest ih =>
    have hiD : i < D.length := by
      by_contra hcon
      have : D.drop i = [] := List.drop_eq_nil_iff.mpr (le_of_not_lt hcon)
      rw [hds] at this
      exact List.cons_ne_nil d rest this
    have hdi : d = D.get ⟨i, hiD⟩ := by
      have h0 : (D.drop i).get ⟨0, by rw [hds]; simp⟩ = D.get ⟨i, hiD⟩ := by
        simp [List.get_eq_getElem, List.getElem_drop]
      rw [← h0]
      simp [List.get_eq_getElem, hds]
    have hrest : D.drop (i + 1) = rest := by
      have : (D.drop i).drop 1 = D.drop (i + 1) := by
        rw [List.drop_drop]
      rw [hds] at this
      simpa using this.symm
    by_cases hdm : d < m
    · have := ih (i + 1) i d hrest hiD hdi
        (by
          intro j hj hji
          rcases Nat.lt_succ_iff_lt_or_eq.mp hji with hji' | hji'
          · exact le_of_lt (lt_of_lt_of_le hdm (hmin j hj hji'))
          · subst hji'
            rw [← hdi])
        (by
          intro j hj hji
          exact lt_of_lt_of_le hdm (hmin j hj hji))
      simpa [select_min, if_pos hdm] using this
    · have hmd : m ≤ d := le_of_not_lt hdm
      have := ih (i + 1) b m hrest hbD hm
        (by
          intro j hj hji
          rcases Nat.lt_succ_iff_lt_or_eq.mp hji with hji' | hji'
          · exact hmin j hj hji'
          · subst hji'
            rw [← hdi]; exact hmd)
        hfirst
      simpa [select_min, if_neg hdm] using this

lemma find_current_step_singleton (loc : ℝ × ℝ) (s : Step) :
    find_current_step loc [s] = 0 := by
  simp [find_current_step, select_min]

lemma find_current_step_pair_snd (loc : ℝ × ℝ) (s0 s1 : Step)
    (h : calculate_distance loc (step_coords s1) < calculate_distance loc (step_coords s0)) :
    find_current_step loc [s0, s1] = 1 := by
  simp [find_current_step, select_min, h]

lemma find_current_step_pair_fst (loc : ℝ × ℝ) (s0 s1 : Step)
    (h : ¬ calculate_distance loc (step_coords s1) < calculate_distance loc (step_coords s0)) :
    find_current_step loc [s0, s1] = 0 := by
  simp [find_current_step, select_min, h]

end Geo

section StepSpec

/-- C6: for a non-empty list of steps, `find_current_step` returns an
index in `[0, N)` pointing at a step whose maneuver location attains the
minimum haversine distance to the position, and every strictly earlier
index has a strictly larger distance (ties are resolved by the lowest
index). Being a function of its arguments, it is deterministic. -/
theorem find_current_step_is_nearest (loc : ℝ × ℝ) (steps : List Step)
    (h : steps ≠ []) :
    ∃ hr : find_current_step loc steps < steps.length,
      (∀ j (hj : j < steps.length),
        calculate_distance loc (step_coords (steps.get ⟨find_current_step loc steps, hr⟩)) ≤
          calculate_distance loc (step_coords (steps.get ⟨j, hj⟩))) ∧
      (∀ j (hj : j < steps.length), j < find_current_step loc steps →
        calculate_distance loc (step_coords (steps.get ⟨find_current_step loc steps, hr⟩)) <
          calculate_distance loc (step_coords (steps.get ⟨j, hj⟩))) := by
  cases steps with
  | nil => exact absurd rfl h
  | cons s rest =>
    have heq : find_current_step loc (s :: rest)
        = select_min (rest.map (fun step => calculate_distance loc (step_coords step))) 1 0
          (some (calculate_distance loc (step_coords s))) := by
      simp [find_current_step, select_min]
    have hspec := select_min_spec
      ((s :: rest).map (fun step => calculate_distance loc (step_coords step)))
      (rest.map (fun step => calculate_distance loc (step_coords step)))
      1 0 (calculate_distance loc (step_coords s))
      (by simp) (by simp) (by simp [List.get_eq_getElem])
      (by
        intro j hj hj1
        have hj0 : j = 0 := Nat.lt_one_iff.mp hj1
        subst hj0
        simp [List.get_eq_getElem])
      (by
        intro j hj hj0
        exact absurd hj0 (Nat.not_lt_zero j))
    obtain ⟨hr, hle, hlt⟩ := hspec
    simp only [List.get_eq_getElem, List.getElem_map, List.length_map] at hr hle hlt
    simp only [List.get_eq_getElem]
    rw [heq]
    exact ⟨hr, hle, hlt⟩

/-- Witness for the C6 theorem at a concrete input: a one-step route is
non-empty and the returned index 0 is the (unique) nearest step. -/
theorem find_current_step_is_nearest_witness :
    ([Step.mk ((0 : ℝ), (0 : ℝ))] : List Step) ≠ [] ∧
    ∃ hr : find_current_step ((0 : ℝ), (0 : ℝ)) [Step.mk ((0 : ℝ), (0 : ℝ))]
        < ([Step.mk ((0 : ℝ), (0 : ℝ))] : List Step).length,
      (∀ j (hj : j < ([Step.mk ((0 : ℝ), (0 : ℝ))] : List Step).length),
        calculate_distance ((0 : ℝ), (0 : ℝ))
            (step_coords (([Step.mk ((0 : ℝ), (0 : ℝ))] : List Step).get
              ⟨find_current_step ((0 : ℝ), (0 : ℝ)) [Step.mk ((0 : ℝ), (0 : ℝ))], hr⟩)) ≤
          calculate_distance ((0 : ℝ), (0 : ℝ))
            (step_coords (([Step.mk ((0 : ℝ), (0 : ℝ))] : List Step).get ⟨j, hj⟩))) ∧
      (∀ j (hj : j < ([Step.mk ((0 : ℝ), (0 : ℝ))] : List Step).length),
        j < find_current_step ((0 : ℝ), (0 : ℝ)) [Step.mk ((0 : ℝ), (0 : ℝ))] →
        calculate_distance ((0 : ℝ), (0 : ℝ))
            (step_coords (([Step.mk ((0 : ℝ), (0 : ℝ))] : List Step).get
              ⟨find_current_step ((0 : ℝ), (0 : ℝ)) [Step.mk ((0 : ℝ), (0 : ℝ))], hr⟩)) <
          calculate_distance ((0 : ℝ), (0 : ℝ))
            (step_coords (([Step.mk ((0 : ℝ), (0 : ℝ))] : List Step).get ⟨j, hj⟩))) :=
  ⟨by simp,
    find_current_step_is_nearest ((0 : ℝ), (0 : ℝ))
      [Step.mk ((0 : ℝ), (0 : ℝ))] (by simp)⟩

/-- C10: on an empty step list `find_current_step` returns 0 rather than
failing, and 0 is not a valid index into the empty list. -/
theorem find_current_step_nil (loc : ℝ × ℝ) :
    find_current_step loc [] = 0 ∧
      ¬ find_current_step loc [] < ([] : List Step).length := by
  constructor
  · simp [find_current_step, select_min]
  · simp

end StepSpec

noncomputable section Tracker

/-- Speech emitted by the router while processing one position fix:
the spoken instruction for a step index, or the arrival announcement. -/
inductive NavEvent where
  | instruction (idx : ℕ)
  | arrival
deriving DecidableEq

/-- The mutable tracker state of `PiNavigationRouter`: `currentStep` is
`self.current_step`; `active` models `current_destination` and
`current_route` being set (they are set and cleared together). -/
structure NavState where
  currentStep : ℕ
  active : Bool
deriving DecidableEq

/-- Model of `PiNavigationRouter._process_navigation` (pi_navigation_router.py
lines 124-165), as invoked from `_process_location_update` (which guards
on `current_destination and current_route`, modelled by `active`).
`destCoords` is the result of `_get_destination_coords()` (geocoding the
stored destination, `none` when geocoding fails). The arrival branch
runs `_stop_navigation`, which clears the route and resets
`current_step` to 0. -/
def process_navigation (steps : List Step) (destCoords : Option (ℝ × ℝ))
    (s : NavState) (loc : ℝ × ℝ) : NavState × List NavEvent :=
  if s.active = false then (s, [])
  else
    match steps with
    | [] => (s, [])
    | _ :: _ =>
      let idx := find_current_step loc steps
      if idx ≠ s.currentStep then
        match destCoords with
        | some dc =>
          if calculate_distance loc dc < 20 then
            (⟨0, false⟩, [NavEvent.instruction idx, NavEvent.arrival])
          else (⟨idx, true⟩, [NavEvent.instruction idx])
        | none => (⟨idx, true⟩, [NavEvent.instruction idx])
      else (s, [])

/-- C1 counterexample: an active session, one step whose maneuver point
is the destination itself, current step index already 0, and a fix
exactly at the destination (distance 0 < 20 m). The nearest-step index
does not change, so `_process_navigation` neither announces arrival nor
ends the session: the session stays active and nothing is spoken. -/
theorem process_navigation_within_radius_no_arrival :
    (⟨0, true⟩ : NavState).active = true ∧
    calculate_distance ((0 : ℝ), (0 : ℝ)) ((0 : ℝ), (0 : ℝ)) < 20 ∧
    (process_navigation [Step.mk ((0 : ℝ), (0 : ℝ))] (some ((0 : ℝ), (0 : ℝ)))
      ⟨0, true⟩ ((0 : ℝ), (0 : ℝ))).1.active = true ∧
    (process_navigation [Step.mk ((0 : ℝ), (0 : ℝ))] (some ((0 : ℝ), (0 : ℝ)))
      ⟨0, true⟩ ((0 : ℝ), (0 : ℝ))).2 = [] := by
  refine ⟨rfl, ?_, ?_, ?_⟩
  · rw [calculate_distance_self]; norm_num
  · simp [process_navigation, find_current_step_singleton]
  · simp [process_navigation, find_current_step_singleton]

/-- C1 amended: for an active session with a non-empty step list, a fix
within 20 m of the geocoded destination transitions the session to
arrived (announces the step instruction and the arrival, ends the
session, resets the step index to 0) provided the nearest-step index
differs from the current step index on this fix. -/
theorem process_navigation_arrival_on_step_change (steps : List Step)
    (dc : ℝ × ℝ) (s : NavState) (loc : ℝ × ℝ)
    (hactive : s.active = true) (hsteps : steps ≠ [])
    (hidx : find_current_step loc steps ≠ s.currentStep)
    (hdist : calculate_distance loc dc < 20) :
    process_navigation steps (some dc) s loc
      = (⟨0, false⟩,
          [NavEvent.instruction (find_current_step loc steps), NavEvent.arrival]) := by
  cases steps with
  | nil => exact absurd rfl hsteps
  | cons a rest => simp [process_navigation, hactive, hidx, hdist]

/-- One thousandth of a degree north along a meridian is a positive
haversine distance (about 111 m). -/
lemma calculate_distance_milli_pos :
    0 < calculate_distance ((0 : ℝ), (0 : ℝ)) ((1 / 1000 : ℝ), (0 : ℝ)) := by
  rw [calculate_distance_meridian 0 (1 / 1000) 0 (by norm_num) (by norm_num)]
  have hpi := Real.pi_pos
  unfold radians
  nlinarith

/-- Nearest-step index of a fix at the second of two steps one
thousandth of a degree apart on the prime meridian. -/
lemma find_current_step_milli_snd :
    find_current_step ((1 / 1000 : ℝ), (0 : ℝ))
      [Step.mk ((0 : ℝ), (0 : ℝ)), Step.mk ((0 : ℝ), (1 / 1000 : ℝ))] = 1 := by
  apply find_current_step_pair_snd
  have h1 : step_coords (Step.mk ((0 : ℝ), (1 / 1000 : ℝ))) = ((1 / 1000 : ℝ), (0 : ℝ)) := rfl
  have h0 : step_coords (Step.mk ((0 : ℝ), (0 : ℝ))) = ((0 : ℝ), (0 : ℝ)) := rfl
  rw [h1, h0, calculate_distance_self, calculate_distance_comm]
  exact calculate_distance_milli_pos

/-- Nearest-step index of a fix at the first of the same two steps. -/
lemma find_current_step_milli_fst :
    find_current_step ((0 : ℝ), (0 : ℝ))
      [Step.mk ((0 : ℝ), (0 : ℝ)), Step.mk ((0 : ℝ), (1 / 1000 : ℝ))] = 0 := by
  apply find_current_step_pair_fst
  have h1 : step_coords (Step.mk ((0 : ℝ), (1 / 1000 : ℝ))) = ((1 / 1000 : ℝ), (0 : ℝ)) := rfl
  have h0 : step_coords (Step.mk ((0 : ℝ), (0 : ℝ))) = ((0 : ℝ), (0 : ℝ)) := rfl
  rw [h1, h0, calculate_distance_self]
  exact not_lt.mpr (le_of_lt calculate_distance_milli_pos)

/-- Witness for the amended C1 theorem at a concrete input: two steps on
the prime meridian, current step 0, a fix at the second step which is
also the destination; the nearest-step index changes to 1 and the fix is
0 m from the destination, so the session arrives. -/
theorem process_navigation_arrival_on_step_change_witness :
    (⟨0, true⟩ : NavState).active = true ∧
    ([Step.mk ((0 : ℝ), (0 : ℝ)), Step.mk ((0 : ℝ), (1 / 1000 : ℝ))] : List Step) ≠ [] ∧
    find_current_step ((1 / 1000 : ℝ), (0 : ℝ))
      [Step.mk ((0 : ℝ), (0 : ℝ)), Step.mk ((0 : ℝ), (1 / 1000 : ℝ))]
      ≠ (⟨0, true⟩ : NavState).currentStep ∧
    calculate_distance ((1 / 1000 : ℝ), (0 : ℝ)) ((1 / 1000 : ℝ), (0 : ℝ)) < 20 ∧
    process_navigation [Step.mk ((0 : ℝ), (0 : ℝ)), Step.mk ((0 : ℝ), (1 / 1000 : ℝ))]
        (some ((1 / 1000 : ℝ), (0 : ℝ))) ⟨0, true⟩ ((1 / 1000 : ℝ), (0 : ℝ))
      = (⟨0, false⟩,
          [NavEvent.instruction (find_current_step ((1 / 1000 : ℝ), (0 : ℝ))
            [Step.mk ((0 : ℝ), (0 : ℝ)), Step.mk ((0 : ℝ), (1 / 1000 : ℝ))]),
           NavEvent.arrival]) := by
  have hidx : find_current_step ((1 / 1000 : ℝ), (0 : ℝ))
      [Step.mk ((0 : ℝ), (0 : ℝ)), Step.mk ((0 : ℝ), (1 / 1000 : ℝ))]
      ≠ (⟨0, true⟩ : NavState).currentStep := by
    rw [find_current_step_milli_snd]
    simp
  have hdist : calculate_distance ((1 / 1000 : ℝ), (0 : ℝ)) ((1 / 1000 : ℝ), (0 : ℝ)) < 20 := by
    rw [calculate_distance_self]; norm_num
  exact ⟨rfl, by simp, hidx, hdist,
    process_navigation_arrival_on_step_change _ _ _ _ rfl (by simp) hidx hdist⟩

/-- C3: processing two fixes in succession whose nearest-step lookups
agree emits speech at most on the first call: the second call emits
nothing, whatever the session state was before the first call. -/
theorem process_navigation_speak_once (steps : List Step)
    (destCoords : Option (ℝ × ℝ)) (s : NavState) (loc1 loc2 : ℝ × ℝ)
    (h : find_current_step loc2 steps = find_current_step loc1 steps) :
    (process_navigation steps destCoords
      (process_navigation steps destCoords s loc1).1 loc2).2 = [] := by
  by_cases hs : s.active = false
  · simp [process_navigation, hs]
  · have hs' : s.active = true := by
      cases hb : s.active
      · exact absurd hb hs
      · rfl
    cases steps with
    | nil => simp [process_navigation, hs']
    | cons a rest =>
      by_cases hidx : find_current_step loc1 (a :: rest) ≠ s.currentStep
      · cases destCoords with
        | none =>
          have hP1 : (process_navigation (a :: rest) none s loc1).1
              = ⟨find_current_step loc1 (a :: rest), true⟩ := by
            simp [process_navigation, hs', hidx]
          rw [hP1]
          simp [process_navigation, h]
        | some dc =>
          by_cases hdist : calculate_distance loc1 dc < 20
          · have hP1 : (process_navigation (a :: rest) (some dc) s loc1).1
                = ⟨0, false⟩ := by
              simp [process_navigation, hs', hidx, hdist]
            rw [hP1]
            simp [process_navigation]
          · have hP1 : (process_navigation (a :: rest) (some dc) s loc1).1
                = ⟨find_current_step loc1 (a :: rest), true⟩ := by
              simp [process_navigation, hs', hidx, hdist]
            rw [hP1]
            simp [process_navigation, h]
      · have heq : find_current_step loc1 (a :: rest) = s.currentStep :=
          not_ne_iff.mp hidx
        have hP1 : process_navigation (a :: rest) destCoords s loc1 = (s, []) := by
          simp [process_navigation, hs', heq]
        rw [hP1]
        have h2 : find_current_step loc2 (a :: rest) = s.currentStep := by
          rw [h]; exact heq
        simp [process_navigation, hs', h2]

/-- Witness for C3 at a concrete input: the same fix processed twice on
a one-step route; the second call emits nothing. -/
theorem process_navigation_speak_once_witness :
    find_current_step ((0 : ℝ), (0 : ℝ)) [Step.mk ((0 : ℝ), (0 : ℝ))]
      = find_current_step ((0 : ℝ), (0 : ℝ)) [Step.mk ((0 : ℝ), (0 : ℝ))] ∧
    (process_navigation [Step.mk ((0 : ℝ), (0 : ℝ))] none
      (process_navigation [Step.mk ((0 : ℝ), (0 : ℝ))] none
        ⟨0, true⟩ ((0 : ℝ), (0 : ℝ))).1 ((0 : ℝ), (0 : ℝ))).2 = [] :=
  ⟨rfl, process_navigation_speak_once _ _ _ _ _ rfl⟩

/-- C4 counterexample: with two steps one thousandth of a degree apart
on the prime meridian and an active session at step 0, a fix at the
second step raises the announced step index to 1, and a following fix
back at the first step lowers it to 0: the index is not monotone.
(Session start also initializes it to 0, not -1.) -/
theorem process_navigation_current_step_decreases :
    (process_navigation [Step.mk ((0 : ℝ), (0 : ℝ)), Step.mk ((0 : ℝ), (1 / 1000 : ℝ))]
      none ⟨0, true⟩ ((1 / 1000 : ℝ), (0 : ℝ))).1.currentStep = 1 ∧
    (process_navigation [Step.mk ((0 : ℝ), (0 : ℝ)), Step.mk ((0 : ℝ), (1 / 1000 : ℝ))]
      none
      (process_navigation [Step.mk ((0 : ℝ), (0 : ℝ)), Step.mk ((0 : ℝ), (1 / 1000 : ℝ))]
        none ⟨0, true⟩ ((1 / 1000 : ℝ), (0 : ℝ))).1
      ((0 : ℝ), (0 : ℝ))).1.currentStep = 0 := by
  have hP1 : (process_navigation
      [Step.mk ((0 : ℝ), (0 : ℝ)), Step.mk ((0 : ℝ), (1 / 1000 : ℝ))]
      none ⟨0, true⟩ ((1 / 1000 : ℝ), (0 : ℝ))).1 = ⟨1, true⟩ := by
    simp only [process_navigation, find_current_step_milli_snd]
    norm_num
  constructor
  · rw [hP1]
  · rw [hP1]
    simp only [process_navigation, find_current_step_milli_fst]
    norm_num

/-- C4 amended: while a session is active and no arrival occurs (here:
no geocoded destination), each processed fix leaves the announced step
index equal to the nearest-step index of that fix — which may be lower
than the previous value; the index is initialized to 0 (not -1) at
session start and is not monotone. -/
theorem process_navigation_current_step_eq_nearest (steps : List Step)
    (s : NavState) (loc : ℝ × ℝ)
    (hactive : s.active = true) (hsteps : steps ≠ []) :
    (process_navigation steps none s loc).1.currentStep
      = find_current_step loc steps := by
  cases steps with
  | nil => exact absurd rfl hsteps
  | cons a rest =>
    by_cases hidx : find_current_step loc (a :: rest) ≠ s.currentStep
    · simp [process_navigation, hactive, hidx]
    · have heq : find_current_step loc (a :: rest) = s.currentStep :=
        not_ne_iff.mp hidx
      simp [process_navigation, hactive, heq]

/-- Witness for the amended C4 theorem at a concrete input: a one-step
route and a fix at the step leave the announced index at the
nearest-step index 0. -/
theorem process_navigation_current_step_eq_nearest_witness :
    (⟨0, true⟩ : NavState).active = true ∧
    ([Step.mk ((0 : ℝ), (0 : ℝ))] : List Step) ≠ [] ∧
    (process_navigation [Step.mk ((0 : ℝ), (0 : ℝ))] none
      ⟨0, true⟩ ((0 : ℝ), (0 : ℝ))).1.currentStep
      = find_current_step ((0 : ℝ), (0 : ℝ)) [Step.mk ((0 : ℝ), (0 : ℝ))] :=
  ⟨rfl, by simp,
    process_navigation_current_step_eq_nearest _ _ _ rfl (by simp)⟩

end Tracker

section DistanceSpec

/-- C8: the haversine distance of `TextMaps.calculate_distance` is zero
from any position to itself and is symmetric in its two arguments. -/
theorem calculate_distance_self_and_comm (a b : ℝ × ℝ) :
    calculate_distance a a = 0 ∧ calculate_distance a b = calculate_distance b a :=
  ⟨calculate_distance_self a, calculate_distance_comm a b⟩

end DistanceSpec

section Bus

/-- A decoded command message on the relay's command channel: `kind` is
the JSON "type" field, `timestamp` the publish time, `payload` the rest
of the decoded dictionary (so equality of `Cmd`s is the dict equality
Python's `!=` performs). -/
structure Cmd where
  kind : String
  timestamp : ℕ
  payload : String
deriving DecidableEq

/-- The polling loop of `FirebaseClient.listen_for_commands`
(firebase_client.py lines 238-254): each tick reads the relay value
(`none` models a null/empty channel); the callback fires exactly when
the value is non-null and differs from `last_data`, which then becomes
the value. Returns the list of callback invocations in order. -/
def poll_commands : Option Cmd → List (Option Cmd) → List Cmd
  | _, [] => []
  | last, data :: rest =>
    match data with
    | some c =>
      if some c ≠ last then c :: poll_commands (some c) rest
      else poll_commands last rest
    | none => poll_commands last rest

/-- C2 counterexample: a relay value that reappears after an intervening
different value is delivered again — the loop keeps only `last_data`,
not the set of delivered `(kind, timestamp)` identities. Over the tick
sequence A, B, A the callback fires three times, twice with the same
message A (hence twice with the identity `("voice_command", 100)`). -/
theorem poll_commands_redelivers_same_identity :
    poll_commands none
        [some ⟨"voice_command", 100, "a"⟩, some ⟨"voice_command", 200, "b"⟩,
          some ⟨"voice_command", 100, "a"⟩]
      = [⟨"voice_command", 100, "a"⟩, ⟨"voice_command", 200, "b"⟩,
          ⟨"voice_command", 100, "a"⟩] ∧
    List.count (⟨"voice_command", 100, "a"⟩ : Cmd)
        (poll_commands none
          [some ⟨"voice_command", 100, "a"⟩, some ⟨"voice_command", 200, "b"⟩,
            some ⟨"voice_command", 100, "a"⟩]) = 2 := by
  constructor
  · simp [poll_commands]
  · simp [poll_commands, List.count_cons]

lemma poll_commands_spec (ticks : List (Option Cmd)) : ∀ last : Option Cmd,
    List.Chain' (fun a b => a ≠ b) (poll_commands last ticks) ∧
    ∀ c ∈ (poll_commands last ticks).head?, some c ≠ last := by
  induction ticks with
  | nil => intro last; simp [poll_commands]
  | cons d rest ih =>
    intro last
    cases d with
    | none => simpa [poll_commands] using ih last
    | some c =>
      by_cases hc : some c ≠ last
      · obtain ⟨ih1, ih2⟩ := ih (some c)
        rw [poll_commands, if_pos hc]
        constructor
        · rw [List.chain'_cons']
          refine ⟨?_, ih1⟩
          intro y hy
          have := ih2 y hy
          intro hcy
          exact this (by rw [hcy])
        · intro x hx
          simp only [List.head?_cons, Option.mem_def, Option.some_inj] at hx
          rw [hx] at hc
          exact hc
      · obtain ⟨ih1, ih2⟩ := ih last
        rw [poll_commands, if_neg hc]
        exact ⟨ih1, ih2⟩

/-- C2 amended: the command-poll callback never fires twice in
succession with the same message (deliveries form a chain of pairwise
distinct neighbours), and once a message is the last seen value, any
number of further ticks with the unchanged relay value fire no callback
at all — but a message reappearing after an intervening different value
is delivered again (see the counterexample). -/
theorem poll_commands_no_consecutive_duplicates (last : Option Cmd)
    (ticks : List (Option Cmd)) :
    List.Chain' (fun a b => a ≠ b) (poll_commands last ticks) ∧
    ∀ (c : Cmd) (n : ℕ),
      poll_commands (some c) (List.replicate n (some c)) = [] := by
  constructor
  · exact (poll_commands_spec ticks last).1
  · intro c n
    induction n with
    | zero => rfl
    | succ k ihk => simp [List.replicate_succ, poll_commands, ihk]

/-- Model of `FirebaseClient.get_latest_command` (firebase_client.py lines
287-306): a plain GET of the command channel. `store` is the channel's
current value (`none` when empty); a not-ready client or a failed
request also yields `none`. The function keeps no state and performs no
deduplication. -/
def get_latest_command (ready : Bool) (store : Option Cmd) : Option Cmd :=
  if ready then store else none

/-- C5 counterexample: `get_latest_command` is stateless, so a second
call with no new publish (unchanged `store`) returns the same message
again rather than `none`: with the navigation command published at
t = 100 still stored, every call — first or second — yields that
message, never `ok = false`. -/
theorem get_latest_command_no_dedup :
    get_latest_command true (some ⟨"navigation_start", 100, "x"⟩)
      = some ⟨"navigation_start", 100, "x"⟩ ∧
    get_latest_command true (some ⟨"navigation_start", 100, "x"⟩) ≠ none := by
  constructor <;> simp [get_latest_command]

/-- The command id `f"{type}_{timestamp}"` computed by
`EnhancedLaptopClient._command_listening_loop` (line 128). -/
def command_id (c : Cmd) : String := c.kind ++ "_" ++ toString c.timestamp

/-- Model of `EnhancedLaptopClient._command_listening_loop` (lines 119-138): each
tick reads `get_latest_command` and processes the command only when its
id differs from `last_processed_command` (initially `None`). Returns
the list of processed commands. -/
def command_listening_loop (lastId : Option String) :
    List (Option Cmd) → List Cmd
  | [] => []
  | store :: rest =>
    match get_latest_command true store with
    | some c =>
      if some (command_id c) ≠ lastId then
        c :: command_listening_loop (some (command_id c)) rest
      else command_listening_loop lastId rest
    | none => command_listening_loop lastId rest

/-- C5 amended: deduplication lives in the caller, not in
`get_latest_command`: the client's command loop tracks the last
processed `type_timestamp` id, so a command left unchanged on the
channel over any number of poll ticks is processed exactly once. -/
theorem command_listening_loop_processes_once (c : Cmd) (n : ℕ) :
    command_listening_loop none (List.replicate (n + 1) (some c)) = [c] := by
  have haux : ∀ m, command_listening_loop (some (command_id c))
      (List.replicate m (some c)) = [] := by
    intro m
    induction m with
    | zero => rfl
    | succ k ihk =>
      simp [List.replicate_succ, command_listening_loop, get_latest_command, ihk]
  simp [List.replicate_succ, command_listening_loop, get_latest_command, haux n]

/-- A decoded location message (`latitude`, `longitude`, `timestamp`);
the poll loop only tests such messages for equality, so the numeric
fields are modelled as rationals with decidable equality. -/
structure LocMsg where
  latitude : ℚ
  longitude : ℚ
  timestamp : ℚ
deriving DecidableEq

/-- One tick of the location-listener loop: the listener flag as read at
the top of the loop (`self.listeners.get('location', False)`), and the
outcome of the GET — `Except.error` for a transport error (caught by the
`except` block, which logs and sleeps), `Except.ok` for a response. -/
structure LocTick where
  flag : Bool
  result : Except Unit (Option LocMsg)

/-- The polling loop of `FirebaseClient.listen_for_location_updates`
(firebase_client.py lines 194-214). Returns the number of ticks the
loop consumed before exiting and the callback invocations in order. -/
def poll_location : Option LocMsg → List LocTick → ℕ × List LocMsg
  | _, [] => (0, [])
  | last, t :: rest =>
    if t.flag = false then (0, [])
    else
      match t.result with
      | Except.error _ =>
        let p := poll_location last rest
        (p.1 + 1, p.2)
      | Except.ok data =>
        match data with
        | some d =>
          if some d ≠ last then
            let p := poll_location (some d) rest
            (p.1 + 1, d :: p.2)
          else
            let p := poll_location last rest
            (p.1 + 1, p.2)
        | none =>
          let p := poll_location last rest
          (p.1 + 1, p.2)

/-- C9: the location-listener loop consumes exactly the ticks up to the
first one whose listener flag is cleared: a transport error on a tick
never terminates the loop (the errored tick is consumed and polling
resumes), and the loop stops only when the flag is cleared. -/
theorem poll_location_runs_until_stopped (last : Option LocMsg)
    (ticks : List LocTick) :
    (poll_location last ticks).1
      = (ticks.takeWhile (fun t => t.flag)).length := by
  induction ticks generalizing last with
  | nil => rfl
  | cons t rest ih =>
    cases hf : t.flag with
    | false => simp [poll_location, hf, List.takeWhile_cons]
    | true =>
      cases hres : t.result with
      | error e =>
        simp [poll_location, hf, hres, List.takeWhile_cons, ih]
      | ok data =>
        cases data with
        | none => simp [poll_location, hf, hres, List.takeWhile_cons, ih]
        | some d =>
          by_cases hd : some d ≠ last
          · simp [poll_location, hf, hres, hd, List.takeWhile_cons, ih]
          · simp [poll_location, hf, hres, hd, List.takeWhile_cons, ih]

end Bus

noncomputable section ClientLoop

/-- One tick of the client's location-tracking loop: the GPS fix
obtained this tick (`none` when unavailable) and whether the
`send_location_update` PUT would succeed this tick. -/
structure FixTick where
  fix : Option (ℝ × ℝ)
  pubOk : Bool

/-- One iteration of `EnhancedLaptopClient._location_tracking_loop`
(enhanced_laptop_client.py lines 69-117): publish when there is no last
*sent* position yet, or when the fix is more than 10 m from it; only a
successful publish updates the last sent position. Returns the new last
sent position and the publish calls made (the failure counter only
affects sleeping and is not modelled). -/
def location_tracking_step (lastSent : Option (ℝ × ℝ)) (t : FixTick) :
    Option (ℝ × ℝ) × List (ℝ × ℝ) :=
  match t.fix with
  | none => (lastSent, [])
  | some f =>
    match lastSent with
    | none =>
      if t.pubOk then (some f, [f]) else (none, [f])
    | some l =>
      if calculate_distance l f > 10 then
        (if t.pubOk then some f else some l, [f])
      else (some l, [])

/-- The location-tracking loop over a finite run of ticks, concatenating
all publish calls. -/
def location_tracking_run (lastSent : Option (ℝ × ℝ)) :
    List FixTick → Option (ℝ × ℝ) × List (ℝ × ℝ)
  | [] => (lastSent, [])
  | t :: rest =>
    let p := location_tracking_step lastSent t
    let q := location_tracking_run p.1 rest
    (q.1, p.2 ++ q.2)

/-- C7 counterexample: two consecutive fixes at the same position (0 m
apart, below the 10 m threshold) can both cause a publish call — the
threshold is measured against the last successfully *sent* position, so
when the first publish fails, the second fix is published too. -/
theorem location_tracking_republishes_after_failure :
    calculate_distance ((0 : ℝ), (0 : ℝ)) ((0 : ℝ), (0 : ℝ)) ≤ 10 ∧
    (location_tracking_run none
        [⟨some ((0 : ℝ), (0 : ℝ)), false⟩, ⟨some ((0 : ℝ), (0 : ℝ)), true⟩]).2
      = [((0 : ℝ), (0 : ℝ)), ((0 : ℝ), (0 : ℝ))] := by
  constructor
  · rw [calculate_distance_self]; norm_num
  · simp [location_tracking_run, location_tracking_step]

/-- C7 amended: when the first of two consecutive fixes is successfully
published (so it becomes the last sent position), a second fix at most
10 m away causes no publish call. -/
theorem location_tracking_threshold (f1 f2 : ℝ × ℝ) (t2ok : Bool)
    (h : calculate_distance f1 f2 ≤ 10) :
    location_tracking_run none [⟨some f1, true⟩, ⟨some f2, t2ok⟩]
      = (some f1, [f1]) := by
  simp [location_tracking_run, location_tracking_step, not_lt.mpr h]

/-- Witness for the amended C7 theorem at a concrete input: two fixes at
the same position, the first published successfully; only one publish
call occurs. -/
theorem location_tracking_threshold_witness :
    calculate_distance ((0 : ℝ), (0 : ℝ)) ((0 : ℝ), (0 : ℝ)) ≤ 10 ∧
    location_tracking_run none
        [⟨some ((0 : ℝ), (0 : ℝ)), true⟩, ⟨some ((0 : ℝ), (0 : ℝ)), true⟩]
      = (some ((0 : ℝ), (0 : ℝ)), [((0 : ℝ), (0 : ℝ))]) := by
  have h : calculate_distance ((0 : ℝ), (0 : ℝ)) ((0 : ℝ), (0 : ℝ)) ≤ 10 := by
    rw [calculate_distance_self]; norm_num
  exact ⟨h, location_tracking_threshold _ _ _ h⟩

end ClientLoop

end HINT
